import Mathlib

/-!
Shallow embedding of `cmd/wolf-agent/main.go` (bo0tzz/fenrir), the readiness-gated
streaming reverse proxy.

Modelling conventions:

* URL paths are represented by their list of slash-separated segments of a rooted
  path (so `/api/v1/apps` is `["api", "v1", "apps"]`, and a trailing slash shows up
  as a trailing `""` segment).  Percent-escaping is not modelled; theorems about
  path fidelity carry a `noPercent` hypothesis marking the domain on which this
  abstraction is exact.
* Go `http.Header` values are reference values (maps); `HeaderStore` is an explicit
  heap of header values so that aliasing and `Header.Clone` (a fresh allocation)
  are observable.
* The handler is a pure function from the inbound request plus the environment's
  responses (the `http.NewRequest` error oracle, the result of `client.Do`, the
  sequence of `response.Body.Read` results and per-chunk client-write successes)
  to an outcome: the ordered list of client-visible events, the klog lines, whether
  the backend was contacted, the outbound request handed to `client.Do`, the final
  header heap, and whether the handler panicked.
* The monitor goroutine is a function from the successive `os.Stat` / `net.Dial`
  observations to its event list (logs, sleeps, the `ready.Store` calls, starting
  the agent controller) and the way the loop ended.
-/

/-- `http.StatusServiceUnavailable` (main.go:100,109). -/
def statusServiceUnavailable : Nat := 503

/-- `http.StatusInternalServerError` (main.go:119,130,140). -/
def statusInternalServerError : Nat := 500

/-- `http.StatusBadGateway`; the spec mentions a BadGateway-class response, the code
never uses this constant. -/
def statusBadGateway : Nat := 502

/-- `buf := make([]byte, 4096)` (main.go:160): the relay loop's read-buffer size,
an upper bound on every `Read` result. -/
def bufSize : Nat := 4096

/-- `200 * time.Millisecond` (main.go:90): the monitor's fixed poll interval. -/
def pollIntervalMs : Nat := 200

/-- `http.Header`: a multimap from keys to ordered value lists, as an association
list preserving per-key order. -/
abbrev GoHeader := List (String × List String)

/-- An explicit heap of header values.  Go headers are map references: cloning
allocates a fresh cell, in-place mutation writes through a reference. -/
structure HeaderStore where
  cells : List GoHeader
  deriving DecidableEq

/-- Dereference a header reference. -/
def getHeader (st : HeaderStore) (ref : Nat) : GoHeader := st.cells.getD ref []

/-- Allocate a fresh header cell (`http.Header.Clone`, or the fresh header made by
`http.NewRequest`) and return its reference. -/
def allocHeader (st : HeaderStore) (h : GoHeader) : HeaderStore × Nat :=
  (⟨st.cells ++ [h]⟩, st.cells.length)

/-- In-place mutation through a header reference (writing to an `http.Header` map). -/
def setHeader (st : HeaderStore) (ref : Nat) (h : GoHeader) : HeaderStore :=
  ⟨st.cells.set ref h⟩

/-- The fields of the inbound `*http.Request` that the `/api/v1/` handler reads:
method, URL path (as rooted-path segments), raw query, the header reference,
protocol version fields, transfer-encoding list, content length, and an opaque
name for the body stream. -/
structure InRequest where
  method : String
  pathSegs : List String
  query : String
  headerRef : Nat
  proto : String
  protoMajor : Nat
  protoMinor : Nat
  transferEncoding : List String
  contentLength : Int
  bodyId : Nat
  deriving DecidableEq

/-- One step of Go `path.Clean` on rooted-path segments: empty and `.` segments are
dropped, `..` pops the previous segment (at the root it is dropped). -/
def cleanStep (acc : List String) (s : String) : List String :=
  if s = "" ∨ s = "." then acc
  else if s = ".." then acc.dropLast
  else acc ++ [s]

/-- Go `path.Clean` of a rooted path, acting on its slash-separated segments. -/
def cleanSegs (segs : List String) : List String := segs.foldl cleanStep []

/-- `url.JoinPath("http:" ++ "//", "wolf.sock", r.URL.Path)` (main.go:116).  The base
is a constant that parses (scheme `http`, empty host and path), so the join never
returns an error; the result is `path.Join("/", "wolf.sock", p)` with the leading
slash stripped, i.e. the segment list `cleanSegs ("wolf.sock" :: pathSegs)` of the
string `"http:" ++ "//" ++ joined`.  Only the inbound path participates: the query
string is not part of the join. -/
def urlJoinPathWolf (pathSegs : List String) : Except String (List String) :=
  Except.ok (cleanSegs ("wolf.sock" :: pathSegs))

/-- The outbound URL as `http.NewRequest` re-parses the joined string: the first
joined segment lands in the host position, the remainder is the path, and the
query component is empty. -/
structure OutURL where
  host : String
  pathSegs : List String
  query : String
  deriving DecidableEq

/-- Re-parse of `"http:" ++ "//" ++ intercalate "/" joined` done by `http.NewRequest`. -/
def parseJoined (joined : List String) : OutURL :=
  match joined with
  | [] => ⟨"", [], ""⟩
  | h :: t => ⟨h, t, ""⟩

/-- The outbound `*http.Request` fields the program sets (main.go:122-133). -/
structure OutRequest where
  method : String
  url : OutURL
  headerRef : Nat
  proto : String
  protoMajor : Nat
  protoMinor : Nat
  transferEncoding : List String
  contentLength : Int
  bodyId : Nat
  deriving DecidableEq

/-- `http.NewRequest(method, url, body)` (main.go:122).  `errOracle` abstracts its
error case (invalid method or unparsable URL); on error Go returns a nil
`*Request`, modelled as `none`.  On success the request carries a freshly
allocated empty header, protocol defaults `HTTP/1.1`, empty transfer-encoding and
zero content length (later overwritten by the handler), and aliases the inbound
body stream. -/
def newRequest (method : String) (joined : List String) (bodyId : Nat)
    (st : HeaderStore) (errOracle : Option String) :
    Option (OutRequest × HeaderStore) × Option String :=
  match errOracle with
  | some e => (none, some e)
  | none =>
    let a := allocHeader st []
    (some ({ method := method, url := parseJoined joined, headerRef := a.2,
             proto := "HTTP/1.1", protoMajor := 1, protoMinor := 1,
             transferEncoding := [], contentLength := 0, bodyId := bodyId }, a.1),
     none)

/-- A non-nil error from `response.Body.Read`: either `io.EOF` or some other
read failure. -/
inductive RErr
  | eof
  | fail (msg : String)
  deriving DecidableEq

/-- The environment's answer to one iteration of the relay loop: the bytes the
backend `Read` returned (`n > 0` iff `chunk ≠ []`, with `n ≤ bufSize` by the
`io.Reader` contract on a 4096-byte buffer), the error returned alongside them,
and whether the `w.Write` of that chunk succeeds. -/
structure RelayIn where
  chunk : List Nat
  rerr : Option RErr
  writeOk : Bool
  deriving DecidableEq

/-- Observable events of the `/api/v1/` handler, in program order. -/
inductive CEvent
  | headerAdd (k v : String)
  | headerSet (k v : String)
  | writeHeader (status : Nat)
  | bodyWrite (bytes : List Nat)
  | flush
  | readChunk (bytes : List Nat) (rerr : Option RErr)
  deriving DecidableEq

/-- How the body-relay loop (main.go:161-178) ended. -/
inductive RelayEnd
  | completed
  | clientGone
  | readError (msg : String)
  | fuelOut
  deriving DecidableEq

/-- The body-relay loop (main.go:161-178): read into the 4096-byte buffer; if
bytes arrived, write them to the client (a write failure stops the loop) and
flush; then a non-nil read error either breaks the loop (`io.EOF`) or stops it.
A failed client write emits no delivery event.  `fuelOut` marks exhaustion of the
supplied read results with the loop still running. -/
def relayLoop : List RelayIn → List CEvent × RelayEnd
  | [] => ([], .fuelOut)
  | i :: rest =>
    if i.chunk = [] then
      match i.rerr with
      | none => (.readChunk i.chunk i.rerr :: (relayLoop rest).1, (relayLoop rest).2)
      | some .eof => ([.readChunk i.chunk i.rerr], .completed)
      | some (.fail m) => ([.readChunk i.chunk i.rerr], .readError m)
    else
      if i.writeOk then
        match i.rerr with
        | none =>
          (.readChunk i.chunk i.rerr :: .bodyWrite i.chunk :: .flush :: (relayLoop rest).1,
           (relayLoop rest).2)
        | some .eof =>
          ([.readChunk i.chunk i.rerr, .bodyWrite i.chunk, .flush], .completed)
        | some (.fail m) =>
          ([.readChunk i.chunk i.rerr, .bodyWrite i.chunk, .flush], .readError m)
      else ([.readChunk i.chunk i.rerr], .clientGone)

/-- klog lines emitted by the handler. -/
inductive LogEvent
  | info (msg : String)
  | errorS (err msg : String)
  | infoCompleted (statusCode : Nat)
  deriving DecidableEq

/-- The klog lines tied to the way the relay loop ended: `klog.Info("Client
connection closed")` (main.go:166), `klog.ErrorS(err, "Error reading from
backend")` (main.go:175), `klog.InfoS("Request completed", "statusCode", ...)`
(main.go:179). -/
def relayEndLogs (rend : RelayEnd) (statusCode : Nat) : List LogEvent :=
  match rend with
  | .clientGone => [.info "Client connection closed"]
  | .readError m => [.errorS m "Error reading from backend"]
  | .completed => [.infoCompleted statusCode]
  | .fuelOut => []

/-- The backend's `*http.Response` as the handler consumes it: status code, header,
and the relay loop's environment inputs for the body. -/
structure BackendResp where
  statusCode : Nat
  header : GoHeader
  body : List RelayIn
  deriving DecidableEq

/-- The header-copy loop (main.go:146-150): for every key, `Add` every value, in
the order they appear. -/
def headerCopyEvents (h : GoHeader) : List CEvent :=
  h.flatMap fun kv => kv.2.map fun v => .headerAdd kv.1 v

/-- Bytes of a Go string (for error-response bodies). -/
def strBytes (s : String) : List Nat := s.data.map Char.toNat

/-- `http.Error(w, msg, code)`: sets `Content-Type` and `X-Content-Type-Options`,
writes the status code, then prints the message and a newline. -/
def httpErrorEvents (msg : String) (code : Nat) : List CEvent :=
  [.headerSet "Content-Type" "text/plain; charset=utf-8",
   .headerSet "X-Content-Type-Options" "nosniff",
   .writeHeader code,
   .bodyWrite (strBytes (msg ++ "\n"))]

/-- Outcome of one run of the `/api/v1/` handler. -/
structure HOutcome where
  events : List CEvent
  logs : List LogEvent
  outboundConstructed : Bool
  backendCalled : Bool
  sentRequest : Option OutRequest
  finalStore : HeaderStore
  panicked : Bool
  deriving DecidableEq

/-- The `/api/v1/` handler (main.go:106-180).

Inputs beyond the inbound request and header heap are the environment's answers:
`newReqErr` is `http.NewRequest`'s error oracle, `doResult` the outcome of
`client.Do`, `flusherOk` whether the `http.Flusher` assertion succeeds; the relay
loop's inputs travel inside `doResult`.

Mirrors the source exactly, including the fact that the field assignments
`request.Proto = r.Proto` etc. (main.go:123-127) happen before the error check
(main.go:128): when `http.NewRequest` returns an error the request is nil and the
first assignment dereferences it, so that path ends in a panic with no response
event written.  The error branch for a non-nil request with a non-nil error is
kept for structure but is unreachable in Go. -/
def handleApi (ready : Bool) (r : InRequest) (st : HeaderStore)
    (newReqErr : Option String) (doResult : Except String BackendResp)
    (flusherOk : Bool) : HOutcome :=
  let logs0 : List LogEvent := [.info "Received request"]
  if ready = false then
    { events := [.writeHeader statusServiceUnavailable], logs := logs0,
      outboundConstructed := false, backendCalled := false, sentRequest := none,
      finalStore := st, panicked := false }
  else
    match urlJoinPathWolf r.pathSegs with
    | .error e =>
      { events := httpErrorEvents ("Failed to join URL: " ++ e) statusInternalServerError,
        logs := logs0 ++ [.errorS e "Failed to join URL"],
        outboundConstructed := false, backendCalled := false, sentRequest := none,
        finalStore := st, panicked := false }
    | .ok joined =>
      match newRequest r.method joined r.bodyId st newReqErr with
      | (none, _e) =>
        { events := [], logs := logs0, outboundConstructed := false,
          backendCalled := false, sentRequest := none, finalStore := st,
          panicked := true }
      | (some rs, errMsg) =>
        let req1 : OutRequest :=
          { rs.1 with proto := r.proto, protoMajor := r.protoMajor,
                      protoMinor := r.protoMinor,
                      transferEncoding := r.transferEncoding,
                      contentLength := r.contentLength }
        match errMsg with
        | some e =>
          { events := httpErrorEvents ("Failed to create proxy request: " ++ e)
              statusInternalServerError,
            logs := logs0 ++ [.errorS e "Failed to create proxy request"],
            outboundConstructed := true, backendCalled := false, sentRequest := none,
            finalStore := rs.2, panicked := false }
        | none =>
          let a := allocHeader rs.2 (getHeader rs.2 r.headerRef)
          let req : OutRequest := { req1 with headerRef := a.2 }
          let logs1 := logs0 ++ [.info "Sending request to wolf.sock"]
          match doResult with
          | .error e =>
            { events := httpErrorEvents e statusInternalServerError,
              logs := logs1 ++ [.errorS e "Failed to send request to wolf.sock"],
              outboundConstructed := true, backendCalled := true,
              sentRequest := some req, finalStore := a.1, panicked := false }
          | .ok resp =>
            if flusherOk then
              { events := headerCopyEvents resp.header
                  ++ CEvent.writeHeader resp.statusCode :: (relayLoop resp.body).1,
                logs := logs1 ++ relayEndLogs (relayLoop resp.body).2 resp.statusCode,
                outboundConstructed := true, backendCalled := true,
                sentRequest := some req, finalStore := a.1, panicked := false }
            else
              { events := headerCopyEvents resp.header
                  ++ [CEvent.writeHeader resp.statusCode],
                logs := logs1
                  ++ [.errorS "" "Flushing not supported! Aborting writing response"],
                outboundConstructed := true, backendCalled := true,
                sentRequest := some req, finalStore := a.1, panicked := false }

/-- What one `os.Stat` of the socket path showed (main.go:51): an error (path
absent), a non-socket mode bit, or a socket. -/
inductive StatRes
  | absent
  | nonSocket
  | socket
  deriving DecidableEq

/-- One poll iteration's environment: the stat result, and whether `net.Dial`
would succeed (only consulted in the socket case). -/
structure MObs where
  stat : StatRes
  dialOk : Bool
  deriving DecidableEq

/-- Events of the monitor goroutine (main.go:48-92), in program order. -/
inductive MEvent
  | logWaitAppear
  | logWaitAccept
  | logReady
  | startAgent
  | storeReady (b : Bool)
  | sleep (ms : Nat)
  deriving DecidableEq

/-- How the monitor goroutine ended: `return` after the ready transition,
`klog.Fatal` (process exit), or exhaustion of the supplied observations with the
loop still polling. -/
inductive MEnd
  | returned
  | fatalExit
  | outOfObs
  deriving DecidableEq

/-- `var ready atomic.Bool` (main.go:47): the zero value is false. -/
def readyInitial : Bool := false

/-- The monitor goroutine (main.go:48-92), driven by the successive stat/dial
observations.  Socket present and dialable: log ready, start the agent
controller, `ready.Store(true)`, return.  Socket present but dial refused: warn
and retry after the poll interval.  Path exists but is not a socket:
`klog.Fatal`, terminating the process.  Path absent: log waiting and retry after
the poll interval. -/
def monitorRun : List MObs → List MEvent × MEnd
  | [] => ([], .outOfObs)
  | o :: rest =>
    match o.stat with
    | .socket =>
      if o.dialOk then ([.logReady, .startAgent, .storeReady true], .returned)
      else (.logWaitAccept :: .sleep pollIntervalMs :: (monitorRun rest).1,
            (monitorRun rest).2)
    | .nonSocket => ([], .fatalExit)
    | .absent =>
      (.logWaitAppear :: .sleep pollIntervalMs :: (monitorRun rest).1,
       (monitorRun rest).2)

/-- Events that may appear in a response body relay: backend reads, body writes,
flushes — no header operation and no status write. -/
def bodyClass : CEvent → Bool
  | .headerAdd _ _ => false
  | .headerSet _ _ => false
  | .writeHeader _ => false
  | .bodyWrite _ => true
  | .flush => true
  | .readChunk _ _ => true

/-- A string free of percent signs: on such segments the unmodelled
percent-escaping round trip through `url.JoinPath` and `http.NewRequest` is the
identity. -/
def noPercent (s : String) : Bool := s.data.all fun c => c ≠ '%'

/-- The `ready.Store` calls recorded in a monitor event list, in order. -/
def storeEvents (es : List MEvent) : List Bool :=
  es.filterMap fun e =>
    match e with
    | .storeReady b => some b
    | _ => none

/-! ## Helper lemmas about the header heap -/

theorem listGetD_append_left {α} (l l' : List α) (i : Nat) (d : α)
    (h : i < l.length) : (l ++ l').getD i d = l.getD i d := by
  induction l generalizing i with
  | nil => exact absurd h (by simp)
  | cons a t ih =>
    cases i with
    | zero => rfl
    | succ j => exact ih j (Nat.lt_of_succ_lt_succ h)

theorem listGetD_append_self {α} (l : List α) (x d : α) :
    (l ++ [x]).getD l.length d = x := by
  induction l with
  | nil => rfl
  | cons a t ih => exact ih

theorem listGetD_set_ne {α} (l : List α) (i j : Nat) (x d : α) (h : i ≠ j) :
    (l.set i x).getD j d = l.getD j d := by
  induction l generalizing i j with
  | nil => rfl
  | cons a t ih =>
    cases i with
    | zero =>
      cases j with
      | zero => exact absurd rfl h
      | succ j' => rfl
    | succ i' =>
      cases j with
      | zero => rfl
      | succ j' => exact ih i' j' fun he => h (by rw [he])

theorem getHeader_alloc_lt (st : HeaderStore) (h : GoHeader) (ref : Nat)
    (hr : ref < st.cells.length) :
    getHeader (allocHeader st h).1 ref = getHeader st ref :=
  listGetD_append_left st.cells [h] ref [] hr

theorem getHeader_alloc_self (st : HeaderStore) (h : GoHeader) :
    getHeader (allocHeader st h).1 (allocHeader st h).2 = h :=
  listGetD_append_self st.cells h []

theorem getHeader_set_ne (st : HeaderStore) (h : GoHeader) (ref ref' : Nat)
    (hne : ref ≠ ref') :
    getHeader (setHeader st ref h) ref' = getHeader st ref' :=
  listGetD_set_ne st.cells ref ref' h [] hne

/-! ## Claim theorems -/

/-- C2: while the readiness flag is false, every `/api/v1/` request is answered
with a bare 503 and the handler returns at once: no outbound request is
constructed, `client.Do` is never reached, the header heap is untouched, and no
panic occurs. -/
theorem ready_gate_503 (r : InRequest) (st : HeaderStore) (nre : Option String)
    (doResult : Except String BackendResp) (fOk : Bool) :
    handleApi false r st nre doResult fOk =
      { events := [.writeHeader 503], logs := [.info "Received request"],
        outboundConstructed := false, backendCalled := false, sentRequest := none,
        finalStore := st, panicked := false } := rfl

/-- C5: the claim that the handler is nil-safe fails on the code.  When
`http.NewRequest` returns an error its request is nil, and the assignments
`request.Proto = r.Proto` etc. (main.go:123-127) run before the error check
(main.go:128), so on every such run the handler panics with no response event
written and without contacting the backend — the error branch that would write
the 500 response is dead. -/
theorem nil_request_panic (r : InRequest) (st : HeaderStore) (e : String)
    (doResult : Except String BackendResp) (fOk : Bool) :
    (handleApi true r st (some e) doResult fOk).panicked = true ∧
    (handleApi true r st (some e) doResult fOk).events = [] ∧
    (handleApi true r st (some e) doResult fOk).backendCalled = false := by
  refine ⟨rfl, rfl, rfl⟩

/-- C3 counterexample: a concrete run whose outbound request construction fails
(the `http.NewRequest` error oracle fires).  The claim says the client receives a
BadGateway-class (502) response; in fact no event at all is written — in
particular no 502 status — because the handler panics on the nil request.  The
backend is indeed never contacted. -/
theorem construction_failure_cex :
    (handleApi true ⟨"GET", ["api", "v1", "apps"], "", 0, "HTTP/1.1", 1, 1, [], 0, 0⟩
        ⟨[[("X-Test", ["a"])]]⟩ (some "boom")
        (Except.ok ⟨200, [], []⟩) true).events = [] ∧
    CEvent.writeHeader statusBadGateway ∉
      (handleApi true ⟨"GET", ["api", "v1", "apps"], "", 0, "HTTP/1.1", 1, 1, [], 0, 0⟩
        ⟨[[("X-Test", ["a"])]]⟩ (some "boom")
        (Except.ok ⟨200, [], []⟩) true).events ∧
    (handleApi true ⟨"GET", ["api", "v1", "apps"], "", 0, "HTTP/1.1", 1, 1, [], 0, 0⟩
        ⟨[[("X-Test", ["a"])]]⟩ (some "boom")
        (Except.ok ⟨200, [], []⟩) true).panicked = true := by
  refine ⟨rfl, by decide, rfl⟩

/-- C3 amended: when outbound request construction fails the backend transport is
never contacted, but the client does not receive a BadGateway-class response:
the URL-join step never fails (its 500-responding error branch is dead, and note
it would respond 500, not 502), and a request-creation failure makes the handler
panic on the nil request before any response event is written. -/
theorem construction_failure_no_backend (r : InRequest) (st : HeaderStore)
    (e : String) (doResult : Except String BackendResp) (fOk : Bool) :
    (handleApi true r st (some e) doResult fOk).backendCalled = false ∧
    (handleApi true r st (some e) doResult fOk).sentRequest = none ∧
    (handleApi true r st (some e) doResult fOk).events = [] ∧
    (∀ segs, urlJoinPathWolf segs = Except.ok (cleanSegs ("wolf.sock" :: segs))) := by
  exact ⟨rfl, rfl, rfl, fun _ => rfl⟩

/-- Folding `cleanStep` over segments that are non-empty and neither `.` nor `..`
just appends them: Go `path.Clean` is the identity on already-clean paths. -/
theorem foldl_cleanStep_normal (segs : List String) :
    ∀ acc : List String, (∀ s ∈ segs, s ≠ "" ∧ s ≠ "." ∧ s ≠ "..") →
      segs.foldl cleanStep acc = acc ++ segs := by
  induction segs with
  | nil => intro acc _; simp
  | cons s t ih =>
    intro acc h
    have hs := h s (List.mem_cons_self s t)
    have hstep : cleanStep acc s = acc ++ [s] := by
      simp [cleanStep, hs.1, hs.2.1, hs.2.2]
    calc (s :: t).foldl cleanStep acc = t.foldl cleanStep (cleanStep acc s) := rfl
      _ = t.foldl cleanStep (acc ++ [s]) := by rw [hstep]
      _ = (acc ++ [s]) ++ t := ih (acc ++ [s]) fun x hx => h x (List.mem_cons_of_mem s hx)
      _ = acc ++ s :: t := by simp

/-- C4 counterexample: a concrete `/api/v1/apps?limit=5` request forwarded while
ready.  The outbound request's query component is empty — `url.JoinPath` is
called on `r.URL.Path` alone (main.go:116), so the inbound query string
`limit=5` is dropped, refuting the claim that the query is preserved. -/
theorem query_dropped_cex :
    ((handleApi true
        ⟨"GET", ["api", "v1", "apps"], "limit=5", 0, "HTTP/1.1", 1, 1, [], 0, 0⟩
        ⟨[[("X-Test", ["a"])]]⟩ none (Except.ok ⟨200, [], []⟩) true).sentRequest.map
      fun req => req.url.query) = some "" ∧
    ("" : String) ≠ "limit=5" := by
  exact ⟨rfl, by decide⟩

/-- C4 amended: for a forwarded request whose path is already clean (no empty,
`.` or `..` segment, no percent sign — the domain on which the unmodelled
escaping round trip is the identity), the outbound target addresses host
`wolf.sock` with the inbound path preserved segment-for-segment, but the inbound
query string is dropped: the outbound query is always empty. -/
theorem forward_path_preserved_query_dropped (r : InRequest) (st : HeaderStore)
    (resp : BackendResp) (fOk : Bool)
    (hsegs : ∀ s ∈ r.pathSegs, s ≠ "" ∧ s ≠ "." ∧ s ≠ ".." ∧ noPercent s = true) :
    ∃ req : OutRequest,
      (handleApi true r st none (Except.ok resp) fOk).sentRequest = some req ∧
      req.url.host = "wolf.sock" ∧ req.url.pathSegs = r.pathSegs ∧
      req.url.query = "" := by
  have hnorm : ∀ s ∈ ("wolf.sock" :: r.pathSegs), s ≠ "" ∧ s ≠ "." ∧ s ≠ ".." := by
    intro s hs
    rcases List.mem_cons.mp hs with rfl | hs'
    · exact ⟨by decide, by decide, by decide⟩
    · exact ⟨(hsegs s hs').1, (hsegs s hs').2.1, (hsegs s hs').2.2.1⟩
  have hclean : cleanSegs ("wolf.sock" :: r.pathSegs) = "wolf.sock" :: r.pathSegs := by
    have h := foldl_cleanStep_normal ("wolf.sock" :: r.pathSegs) [] hnorm
    simpa [cleanSegs] using h
  obtain ⟨req, hreq, hurl⟩ :
      ∃ req, (handleApi true r st none (Except.ok resp) fOk).sentRequest = some req ∧
        req.url = parseJoined (cleanSegs ("wolf.sock" :: r.pathSegs)) := by
    cases fOk
    · exact ⟨_, rfl, rfl⟩
    · exact ⟨_, rfl, rfl⟩
  refine ⟨req, hreq, ?_, ?_, ?_⟩ <;> rw [hurl, hclean] <;> rfl

/-- Witness for the amended C4 at a concrete clean path. -/
theorem forward_path_preserved_query_dropped_witness :
    (∀ s ∈ (InRequest.mk "GET" ["api", "v1", "apps"] "limit=5" 0 "HTTP/1.1" 1 1 [] 0
        0).pathSegs, s ≠ "" ∧ s ≠ "." ∧ s ≠ ".." ∧ noPercent s = true) ∧
    ∃ req : OutRequest,
      (handleApi true
          (InRequest.mk "GET" ["api", "v1", "apps"] "limit=5" 0 "HTTP/1.1" 1 1 [] 0 0)
          ⟨[[("X-Test", ["a"])]]⟩ none (Except.ok ⟨200, [], []⟩) true).sentRequest
        = some req ∧
      req.url.host = "wolf.sock" ∧ req.url.pathSegs = ["api", "v1", "apps"] ∧
      req.url.query = "" :=
  ⟨by decide,
   forward_path_preserved_query_dropped
     (InRequest.mk "GET" ["api", "v1", "apps"] "limit=5" 0 "HTTP/1.1" 1 1 [] 0 0)
     ⟨[[("X-Test", ["a"])]]⟩ ⟨200, [], []⟩ true (by decide)⟩

/-- C6: a successfully forwarded request carries the inbound method, protocol
version fields, transfer-encoding list and content length copied exactly
(main.go:122-127), and its header is a defensive copy of the inbound header
(`r.Header.Clone()`, main.go:133): the contents agree, the references differ,
and mutating the inbound header cell after forwarding leaves the outbound
header unchanged. -/
theorem forward_fidelity (r : InRequest) (st : HeaderStore)
    (doResult : Except String BackendResp) (fOk : Bool)
    (hr : r.headerRef < st.cells.length) :
    ∃ req : OutRequest,
      (handleApi true r st none doResult fOk).sentRequest = some req ∧
      req.method = r.method ∧ req.proto = r.proto ∧ req.protoMajor = r.protoMajor ∧
      req.protoMinor = r.protoMinor ∧ req.transferEncoding = r.transferEncoding ∧
      req.contentLength = r.contentLength ∧ req.bodyId = r.bodyId ∧
      getHeader (handleApi true r st none doResult fOk).finalStore req.headerRef
        = getHeader st r.headerRef ∧
      req.headerRef ≠ r.headerRef ∧
      ∀ h', getHeader
          (setHeader (handleApi true r st none doResult fOk).finalStore r.headerRef h')
          req.headerRef = getHeader st r.headerRef := by
  have key : ∃ req,
      (handleApi true r st none doResult fOk).sentRequest = some req ∧
      (handleApi true r st none doResult fOk).finalStore
        = (allocHeader (allocHeader st []).1
            (getHeader (allocHeader st []).1 r.headerRef)).1 ∧
      req.headerRef
        = (allocHeader (allocHeader st []).1
            (getHeader (allocHeader st []).1 r.headerRef)).2 ∧
      req.method = r.method ∧ req.proto = r.proto ∧ req.protoMajor = r.protoMajor ∧
      req.protoMinor = r.protoMinor ∧ req.transferEncoding = r.transferEncoding ∧
      req.contentLength = r.contentLength ∧ req.bodyId = r.bodyId := by
    rcases doResult with e | resp
    · exact ⟨_, rfl, rfl, rfl, rfl, rfl, rfl, rfl, rfl, rfl, rfl⟩
    · cases fOk
      · exact ⟨_, rfl, rfl, rfl, rfl, rfl, rfl, rfl, rfl, rfl, rfl⟩
      · exact ⟨_, rfl, rfl, rfl, rfl, rfl, rfl, rfl, rfl, rfl, rfl⟩
  obtain ⟨req, hsent, hstore, href, hm, hp, hmj, hmn, hte, hcl, hb⟩ := key
  have hclone : getHeader (allocHeader st []).1 r.headerRef = getHeader st r.headerRef :=
    getHeader_alloc_lt st [] r.headerRef hr
  have hlen : (allocHeader st []).1.cells.length = st.cells.length + 1 := by
    simp [allocHeader]
  have hrefval : req.headerRef = st.cells.length + 1 := by
    rw [href]; simp [allocHeader]
  have hne : req.headerRef ≠ r.headerRef := by
    rw [hrefval]; omega
  have hget : getHeader (handleApi true r st none doResult fOk).finalStore req.headerRef
      = getHeader st r.headerRef := by
    rw [hstore, href, getHeader_alloc_self, hclone]
  refine ⟨req, hsent, hm, hp, hmj, hmn, hte, hcl, hb, hget, hne, ?_⟩
  intro h'
  rw [hstore, getHeader_set_ne _ h' r.headerRef req.headerRef fun he => hne he.symm]
  rw [← hstore, hget]

/-- Witness for C6 at a concrete request and header heap. -/
theorem forward_fidelity_witness :
    (InRequest.mk "GET" ["api", "v1", "apps"] "" 0 "HTTP/1.1" 1 1 ["chunked"] (-1)
        0).headerRef < (HeaderStore.mk [[("X-Test", ["a", "b"])]]).cells.length ∧
    ∃ req : OutRequest,
      (handleApi true
          (InRequest.mk "GET" ["api", "v1", "apps"] "" 0 "HTTP/1.1" 1 1 ["chunked"] (-1) 0)
          (HeaderStore.mk [[("X-Test", ["a", "b"])]]) none (Except.ok ⟨200, [], []⟩)
          true).sentRequest = some req ∧
      req.method = "GET" ∧ req.proto = "HTTP/1.1" ∧ req.protoMajor = 1 ∧
      req.protoMinor = 1 ∧ req.transferEncoding = ["chunked"] ∧
      req.contentLength = -1 ∧ req.bodyId = 0 ∧
      getHeader (handleApi true
          (InRequest.mk "GET" ["api", "v1", "apps"] "" 0 "HTTP/1.1" 1 1 ["chunked"] (-1) 0)
          (HeaderStore.mk [[("X-Test", ["a", "b"])]]) none (Except.ok ⟨200, [], []⟩)
          true).finalStore req.headerRef = [("X-Test", ["a", "b"])] ∧
      req.headerRef ≠ 0 ∧
      ∀ h', getHeader
          (setHeader (handleApi true
            (InRequest.mk "GET" ["api", "v1", "apps"] "" 0 "HTTP/1.1" 1 1 ["chunked"] (-1) 0)
            (HeaderStore.mk [[("X-Test", ["a", "b"])]]) none (Except.ok ⟨200, [], []⟩)
            true).finalStore 0 h')
          req.headerRef = [("X-Test", ["a", "b"])] :=
  ⟨by decide,
   forward_fidelity
     (InRequest.mk "GET" ["api", "v1", "apps"] "" 0 "HTTP/1.1" 1 1 ["chunked"] (-1) 0)
     (HeaderStore.mk [[("X-Test", ["a", "b"])]]) (Except.ok ⟨200, [], []⟩) true
     (by decide)⟩

/-- Every event the relay loop emits is a body-relay event: a backend read, a body
write or a flush — never a header operation or a status write. -/
theorem relayLoop_bodyClass (ins : List RelayIn) :
    ∀ e ∈ (relayLoop ins).1, bodyClass e = true := by
  induction ins with
  | nil => intro e he; simp [relayLoop] at he
  | cons i rest ih =>
    intro e he
    rcases i with ⟨chunk, rerr, wOk⟩
    rcases rerr with _ | er
    · rcases chunk with _ | ⟨b, bs⟩
      · simp [relayLoop] at he
        rcases he with rfl | h2
        · rfl
        · exact ih e h2
      · rcases wOk with _ | _
        · simp [relayLoop] at he; subst he; rfl
        · simp [relayLoop] at he
          rcases he with rfl | rfl | rfl | h2
          · rfl
          · rfl
          · rfl
          · exact ih e h2
    · rcases er with _ | m
      · rcases chunk with _ | ⟨b, bs⟩
        · simp [relayLoop] at he; subst he; rfl
        · rcases wOk with _ | _
          · simp [relayLoop] at he; subst he; rfl
          · simp [relayLoop] at he
            rcases he with rfl | rfl | rfl <;> rfl
      · rcases chunk with _ | ⟨b, bs⟩
        · simp [relayLoop] at he; subst he; rfl
        · rcases wOk with _ | _
          · simp [relayLoop] at he; subst he; rfl
          · simp [relayLoop] at he
            rcases he with rfl | rfl | rfl <;> rfl

/-- C7: when a backend response is relayed, the handler first emits exactly the
header-copy events — every key/value pair of the backend header, verbatim and in
order (main.go:146-150) — then writes the backend's exact status code
(main.go:151), and only then come the remaining events, all of which are body
relay events (reads, body writes, flushes): no body byte precedes the header
copy or the status write. -/
theorem headers_status_before_body (r : InRequest) (st : HeaderStore)
    (resp : BackendResp) (fOk : Bool) :
    ∃ rest, (handleApi true r st none (Except.ok resp) fOk).events
        = headerCopyEvents resp.header ++ CEvent.writeHeader resp.statusCode :: rest ∧
      ∀ e ∈ rest, bodyClass e = true := by
  cases fOk
  · exact ⟨[], rfl, by simp⟩
  · exact ⟨(relayLoop resp.body).1, rfl, relayLoop_bodyClass resp.body⟩

/-- For a list with at least one element after the head, `getLast?` skips the head. -/
theorem getLast?_cons_of_ne_nil {α} (a : α) (l : List α) (h : l ≠ []) :
    (a :: l).getLast? = l.getLast? := by
  rcases l with _ | ⟨b, t⟩
  · exact absurd rfl h
  · exact List.getLast?_cons_cons

/-- C8: the readiness flag starts false (`var ready atomic.Bool`, main.go:47), and
over any run of the monitor goroutine the recorded `ready.Store` calls are either
none or exactly one `Store(true)` — never a store of false — and when the store
happens it is the monitor's final event, after which the monitor returns (the
goroutine never re-arms).  Request handlers only load the flag: their event type
has no store operation at all, so the monitor is the only writer. -/
theorem ready_monotone_once (obs : List MObs) :
    readyInitial = false ∧
    (storeEvents (monitorRun obs).1 = [] ∨ storeEvents (monitorRun obs).1 = [true]) ∧
    ∀ b, MEvent.storeReady b ∈ (monitorRun obs).1 →
      b = true ∧ (monitorRun obs).2 = MEnd.returned ∧
      (monitorRun obs).1.getLast? = some (MEvent.storeReady true) := by
  induction obs with
  | nil =>
    refine ⟨rfl, Or.inl rfl, ?_⟩
    intro b hb
    simp [monitorRun] at hb
  | cons o rest ih =>
    obtain ⟨-, ih2, ih3⟩ := ih
    rcases o with ⟨stt, d⟩
    rcases stt with _ | _ | _
    · -- absent
      refine ⟨rfl, ?_, ?_⟩
      · have h : storeEvents (monitorRun (⟨StatRes.absent, d⟩ :: rest)).1
            = storeEvents (monitorRun rest).1 := by
          simp [monitorRun, storeEvents]
        rw [h]; exact ih2
      · intro b hb
        simp only [monitorRun] at hb
        rcases List.mem_cons.mp hb with h0 | hb'
        · exact absurd h0 (by simp)
        rcases List.mem_cons.mp hb' with h0 | hb''
        · exact absurd h0 (by simp)
        obtain ⟨hb1, hb2, hb3⟩ := ih3 b hb''
        have hne : (monitorRun rest).1 ≠ [] := by
          intro h0; rw [h0] at hb''; simp at hb''
        refine ⟨hb1, by simpa [monitorRun] using hb2, ?_⟩
        simp only [monitorRun]
        rw [getLast?_cons_of_ne_nil _ _ (by simp [hne]),
          getLast?_cons_of_ne_nil _ _ hne]
        exact hb3
    · -- nonSocket: klog.Fatal
      refine ⟨rfl, Or.inl (by simp [monitorRun, storeEvents]), ?_⟩
      intro b hb
      simp [monitorRun] at hb
    · -- socket
      rcases d with _ | _
      · -- dial refused
        refine ⟨rfl, ?_, ?_⟩
        · have h : storeEvents (monitorRun (⟨StatRes.socket, false⟩ :: rest)).1
              = storeEvents (monitorRun rest).1 := by
            simp [monitorRun, storeEvents]
          rw [h]; exact ih2
        · intro b hb
          simp only [monitorRun] at hb
          rcases List.mem_cons.mp hb with h0 | hb'
          · exact absurd h0 (by simp)
          rcases List.mem_cons.mp hb' with h0 | hb''
          · exact absurd h0 (by simp)
          obtain ⟨hb1, hb2, hb3⟩ := ih3 b hb''
          have hne : (monitorRun rest).1 ≠ [] := by
            intro h0; rw [h0] at hb''; simp at hb''
          refine ⟨hb1, by simpa [monitorRun] using hb2, ?_⟩
          show (MEvent.logWaitAccept :: MEvent.sleep pollIntervalMs
              :: (monitorRun rest).1).getLast? = some (MEvent.storeReady true)
          rw [getLast?_cons_of_ne_nil _ _ (by simp),
            getLast?_cons_of_ne_nil _ _ hne]
          exact hb3
      · -- dial succeeded: the one-shot transition
        refine ⟨rfl, Or.inr (by simp [monitorRun, storeEvents]), ?_⟩
        intro b hb
        simp [monitorRun] at hb
        exact ⟨hb, rfl, rfl⟩

/-- Witness for C8's membership implication at a run whose socket is immediately
dialable. -/
theorem ready_monotone_once_witness :
    MEvent.storeReady true ∈ (monitorRun [⟨StatRes.socket, true⟩]).1 ∧
    (monitorRun [⟨StatRes.socket, true⟩]).2 = MEnd.returned ∧
    (monitorRun [⟨StatRes.socket, true⟩]).1.getLast?
      = some (MEvent.storeReady true) :=
  ⟨by decide,
   ((ready_monotone_once [⟨StatRes.socket, true⟩]).2.2 true (by decide)).2⟩

/-- C9: one monitor iteration behaves per policy (main.go:51-90): an absent
socket path logs waiting and retries after the fixed 200ms interval (never
fatal); a path that exists but is not a socket is `klog.Fatal` — the process
exits and the loop never continues past that point, whatever observations would
follow; a socket whose dial fails logs a warning and retries after the interval
rather than terminating. -/
theorem monitor_iteration_policy (o : MObs) (rest : List MObs) :
    pollIntervalMs = 200 ∧
    (o.stat = StatRes.absent →
      monitorRun (o :: rest)
        = (MEvent.logWaitAppear :: MEvent.sleep pollIntervalMs :: (monitorRun rest).1,
           (monitorRun rest).2)) ∧
    (o.stat = StatRes.nonSocket → monitorRun (o :: rest) = ([], MEnd.fatalExit)) ∧
    (o.stat = StatRes.socket → o.dialOk = false →
      monitorRun (o :: rest)
        = (MEvent.logWaitAccept :: MEvent.sleep pollIntervalMs :: (monitorRun rest).1,
           (monitorRun rest).2)) := by
  refine ⟨rfl, ?_, ?_, ?_⟩
  · intro h; simp [monitorRun, h]
  · intro h; simp [monitorRun, h]
  · intro h hd; simp [monitorRun, h, hd]

/-- Witness for C9 at one concrete observation of each kind. -/
theorem monitor_iteration_policy_witness :
    monitorRun [⟨StatRes.absent, false⟩]
      = ([MEvent.logWaitAppear, MEvent.sleep pollIntervalMs], MEnd.outOfObs) ∧
    monitorRun [⟨StatRes.nonSocket, false⟩] = ([], MEnd.fatalExit) ∧
    monitorRun [⟨StatRes.socket, false⟩]
      = ([MEvent.logWaitAccept, MEvent.sleep pollIntervalMs], MEnd.outOfObs) :=
  ⟨(monitor_iteration_policy ⟨StatRes.absent, false⟩ []).2.1 rfl,
   (monitor_iteration_policy ⟨StatRes.nonSocket, false⟩ []).2.2.1 rfl,
   (monitor_iteration_policy ⟨StatRes.socket, false⟩ []).2.2.2 rfl rfl⟩

/-- C1: the relay loop reads through a fixed 4096-byte buffer and streams
chunk-by-chunk: every `bodyWrite` event in the relay trace carries the bytes of
exactly one backend read (at most `bufSize` of them, by the reader contract on
the 4096-byte buffer), is immediately preceded by that read, and is immediately
followed by a `flush` — so the flush happens before the next backend read, no
multi-chunk buffering ever occurs, and no chunk's delivery waits on a later
chunk. -/
theorem relay_flush_per_chunk (ins : List RelayIn)
    (hb : ∀ i ∈ ins, i.chunk.length ≤ bufSize) :
    ∀ k c, (relayLoop ins).1[k]? = some (CEvent.bodyWrite c) →
      c.length ≤ bufSize ∧
      (1 ≤ k ∧ ∃ er, (relayLoop ins).1[k - 1]? = some (CEvent.readChunk c er)) ∧
      (relayLoop ins).1[k + 1]? = some CEvent.flush := by
  induction ins with
  | nil => intro k c hk; simp [relayLoop] at hk
  | cons i rest ih =>
    have hbi := hb i (List.mem_cons_self i rest)
    have hbr : ∀ j ∈ rest, j.chunk.length ≤ bufSize := fun j hj =>
      hb j (List.mem_cons_of_mem i hj)
    intro k c hk
    rcases i with ⟨chunk, rerr, wOk⟩
    rcases rerr with _ | er
    · rcases chunk with _ | ⟨b, bs⟩
      · have htr : (relayLoop (⟨[], none, wOk⟩ :: rest)).1
            = CEvent.readChunk [] none :: (relayLoop rest).1 := by
          simp [relayLoop]
        rw [htr] at hk ⊢
        rcases k with _ | k
        · simp at hk
        · simp only [List.getElem?_cons_succ] at hk
          obtain ⟨h1, ⟨hk1, er, hprev⟩, hnext⟩ := ih hbr k c hk
          rcases k with _ | j
          · exact absurd hk1 (by omega)
          · refine ⟨h1, ⟨by omega, er, ?_⟩, ?_⟩
            · simpa only [Nat.add_sub_cancel, List.getElem?_cons_succ] using hprev
            · simpa only [List.getElem?_cons_succ] using hnext
      · rcases wOk with _ | _
        · have htr : (relayLoop (⟨b :: bs, none, false⟩ :: rest)).1
              = [CEvent.readChunk (b :: bs) none] := by simp [relayLoop]
          rw [htr] at hk
          rcases k with _ | k <;> simp at hk
        · have htr : (relayLoop (⟨b :: bs, none, true⟩ :: rest)).1
              = CEvent.readChunk (b :: bs) none :: CEvent.bodyWrite (b :: bs)
                :: CEvent.flush :: (relayLoop rest).1 := by
            simp [relayLoop]
          rw [htr] at hk ⊢
          rcases k with _ | _ | _ | k
          · simp at hk
          · have hw : CEvent.bodyWrite (b :: bs) = CEvent.bodyWrite c :=
              Option.some.inj hk
            cases hw
            exact ⟨hbi, ⟨by omega, none, rfl⟩, by simp⟩
          · simp at hk
          · simp only [List.getElem?_cons_succ] at hk
            obtain ⟨h1, ⟨hk1, er, hprev⟩, hnext⟩ := ih hbr k c hk
            rcases k with _ | j
            · exact absurd hk1 (by omega)
            · refine ⟨h1, ⟨by omega, er, ?_⟩, ?_⟩
              · simpa only [Nat.add_sub_cancel, List.getElem?_cons_succ] using hprev
              · simpa only [List.getElem?_cons_succ] using hnext
    · rcases er with _ | m
      · rcases chunk with _ | ⟨b, bs⟩
        · have htr : (relayLoop (⟨[], some RErr.eof, wOk⟩ :: rest)).1
              = [CEvent.readChunk [] (some RErr.eof)] := by simp [relayLoop]
          rw [htr] at hk
          rcases k with _ | k <;> simp at hk
        · rcases wOk with _ | _
          · have htr : (relayLoop (⟨b :: bs, some RErr.eof, false⟩ :: rest)).1
                = [CEvent.readChunk (b :: bs) (some RErr.eof)] := by simp [relayLoop]
            rw [htr] at hk
            rcases k with _ | k <;> simp at hk
          · have htr : (relayLoop (⟨b :: bs, some RErr.eof, true⟩ :: rest)).1
                = [CEvent.readChunk (b :: bs) (some RErr.eof),
                   CEvent.bodyWrite (b :: bs), CEvent.flush] := by simp [relayLoop]
            rw [htr] at hk ⊢
            rcases k with _ | _ | _ | k
            · simp at hk
            · have hw : CEvent.bodyWrite (b :: bs) = CEvent.bodyWrite c :=
                Option.some.inj hk
              cases hw
              exact ⟨hbi, ⟨by omega, some RErr.eof, rfl⟩, by simp⟩
            · simp at hk
            · simp at hk
      · rcases chunk with _ | ⟨b, bs⟩
        · have htr : (relayLoop (⟨[], some (RErr.fail m), wOk⟩ :: rest)).1
              = [CEvent.readChunk [] (some (RErr.fail m))] := by simp [relayLoop]
          rw [htr] at hk
          rcases k with _ | k <;> simp at hk
        · rcases wOk with _ | _
          · have htr : (relayLoop (⟨b :: bs, some (RErr.fail m), false⟩ :: rest)).1
                = [CEvent.readChunk (b :: bs) (some (RErr.fail m))] := by
              simp [relayLoop]
            rw [htr] at hk
            rcases k with _ | k <;> simp at hk
          · have htr : (relayLoop (⟨b :: bs, some (RErr.fail m), true⟩ :: rest)).1
                = [CEvent.readChunk (b :: bs) (some (RErr.fail m)),
                   CEvent.bodyWrite (b :: bs), CEvent.flush] := by simp [relayLoop]
            rw [htr] at hk ⊢
            rcases k with _ | _ | _ | k
            · simp at hk
            · have hw : CEvent.bodyWrite (b :: bs) = CEvent.bodyWrite c :=
                Option.some.inj hk
              cases hw
              exact ⟨hbi, ⟨by omega, some (RErr.fail m), rfl⟩, by simp⟩
            · simp at hk
            · simp at hk

/-- Witness for C1: a two-read stream (one 1-byte chunk, then a clean EOF); the
single write sits at trace position 1, preceded by its read and followed by the
flush. -/
theorem relay_flush_per_chunk_witness :
    (∀ i ∈ [RelayIn.mk [7] none true, RelayIn.mk [] (some RErr.eof) true],
        i.chunk.length ≤ bufSize) ∧
    (([7] : List Nat).length ≤ bufSize ∧
      (1 ≤ 1 ∧ ∃ er, (relayLoop [RelayIn.mk [7] none true,
          RelayIn.mk [] (some RErr.eof) true]).1[1 - 1]?
        = some (CEvent.readChunk [7] er)) ∧
      (relayLoop [RelayIn.mk [7] none true,
          RelayIn.mk [] (some RErr.eof) true]).1[1 + 1]? = some CEvent.flush) :=
  ⟨by decide,
   relay_flush_per_chunk
     [RelayIn.mk [7] none true, RelayIn.mk [] (some RErr.eof) true]
     (by decide) 1 [7] (by decide)⟩

/-- C10: termination semantics of the relay loop and its reporting.  A failed
client write stops the relay at once with no delivery event and is logged as
plain info, not an error ("Client connection closed").  A backend read error
other than clean EOF stops the relay and is reported through `klog.ErrorS`.  A
clean EOF is the only way the loop completes normally, and completion is
reported together with the response's status code. -/
theorem relay_termination_semantics :
    (∀ (i : RelayIn) (rest : List RelayIn), i.chunk ≠ [] → i.writeOk = false →
      relayLoop (i :: rest) = ([CEvent.readChunk i.chunk i.rerr], RelayEnd.clientGone)) ∧
    (∀ (i : RelayIn) (rest : List RelayIn) (m : String),
      i.rerr = some (RErr.fail m) → i.chunk = [] →
      relayLoop (i :: rest) = ([CEvent.readChunk i.chunk i.rerr], RelayEnd.readError m)) ∧
    (∀ (i : RelayIn) (rest : List RelayIn) (m : String),
      i.rerr = some (RErr.fail m) → i.chunk ≠ [] → i.writeOk = true →
      relayLoop (i :: rest)
        = ([CEvent.readChunk i.chunk i.rerr, CEvent.bodyWrite i.chunk, CEvent.flush],
           RelayEnd.readError m)) ∧
    (∀ (i : RelayIn) (rest : List RelayIn), i.rerr = some RErr.eof → i.chunk = [] →
      relayLoop (i :: rest) = ([CEvent.readChunk i.chunk i.rerr], RelayEnd.completed)) ∧
    (∀ (i : RelayIn) (rest : List RelayIn), i.rerr = some RErr.eof → i.chunk ≠ [] →
      i.writeOk = true →
      relayLoop (i :: rest)
        = ([CEvent.readChunk i.chunk i.rerr, CEvent.bodyWrite i.chunk, CEvent.flush],
           RelayEnd.completed)) ∧
    (∀ ins : List RelayIn, (relayLoop ins).2 = RelayEnd.completed →
      ∃ i ∈ ins, i.rerr = some RErr.eof) ∧
    (∀ status : Nat, relayEndLogs RelayEnd.clientGone status
      = [LogEvent.info "Client connection closed"]) ∧
    (∀ (m : String) (status : Nat), relayEndLogs (RelayEnd.readError m) status
      = [LogEvent.errorS m "Error reading from backend"]) ∧
    (∀ status : Nat, relayEndLogs RelayEnd.completed status
      = [LogEvent.infoCompleted status]) := by
  refine ⟨?_, ?_, ?_, ?_, ?_, ?_, fun _ => rfl, fun _ _ => rfl, fun _ => rfl⟩
  · intro i rest h hw
    simp [relayLoop, h, hw]
  · intro i rest m h hc
    simp [relayLoop, h, hc]
  · intro i rest m h hc hw
    simp [relayLoop, h, hc, hw]
  · intro i rest h hc
    simp [relayLoop, h, hc]
  · intro i rest h hc hw
    simp [relayLoop, h, hc, hw]
  · intro ins
    induction ins with
    | nil => intro h; simp [relayLoop] at h
    | cons i rest ih =>
      intro h
      rcases i with ⟨chunk, rerr, wOk⟩
      rcases rerr with _ | er
      · rcases chunk with _ | ⟨b, bs⟩
        · simp only [relayLoop] at h
          obtain ⟨j, hj, hje⟩ := ih h
          exact ⟨j, List.mem_cons_of_mem _ hj, hje⟩
        · rcases wOk with _ | _
          · simp [relayLoop] at h
          · simp only [relayLoop] at h
            obtain ⟨j, hj, hje⟩ := ih (by simpa using h)
            exact ⟨j, List.mem_cons_of_mem _ hj, hje⟩
      · rcases er with _ | m
        · exact ⟨⟨chunk, some RErr.eof, wOk⟩, List.mem_cons_self _ _, rfl⟩
        · rcases chunk with _ | ⟨b, bs⟩
          · simp [relayLoop] at h
          · rcases wOk with _ | _
            · simp [relayLoop] at h
            · simp [relayLoop] at h

/-- Witness for C10 at one concrete stream per termination kind. -/
theorem relay_termination_semantics_witness :
    relayLoop [⟨[1, 2], none, false⟩]
      = ([CEvent.readChunk [1, 2] none], RelayEnd.clientGone) ∧
    relayLoop [⟨[3], some RErr.eof, true⟩]
      = ([CEvent.readChunk [3] (some RErr.eof), CEvent.bodyWrite [3], CEvent.flush],
         RelayEnd.completed) ∧
    relayLoop [⟨[], some (RErr.fail "broken pipe"), true⟩]
      = ([CEvent.readChunk [] (some (RErr.fail "broken pipe"))],
         RelayEnd.readError "broken pipe") :=
  ⟨relay_termination_semantics.1 ⟨[1, 2], none, false⟩ [] (by decide) rfl,
   relay_termination_semantics.2.2.2.2.1 ⟨[3], some RErr.eof, true⟩ [] rfl
     (by decide) rfl,
   relay_termination_semantics.2.1 ⟨[], some (RErr.fail "broken pipe"), true⟩ []
     "broken pipe" rfl rfl⟩

/-- Witness for C7 at a concrete event-stream response. -/
theorem headers_status_before_body_witness :
    ∃ rest, (handleApi true (InRequest.mk "GET" ["api", "v1", "events"] "" 0
        "HTTP/1.1" 1 1 [] 0 0) (HeaderStore.mk [[]]) none
        (Except.ok ⟨204, [("Content-Type", ["text/event-stream"])],
          [⟨[1], some RErr.eof, true⟩]⟩) true).events
      = headerCopyEvents [("Content-Type", ["text/event-stream"])]
        ++ CEvent.writeHeader 204 :: rest ∧
      ∀ e ∈ rest, bodyClass e = true :=
  headers_status_before_body
    (InRequest.mk "GET" ["api", "v1", "events"] "" 0 "HTTP/1.1" 1 1 [] 0 0)
    (HeaderStore.mk [[]])
    ⟨204, [("Content-Type", ["text/event-stream"])], [⟨[1], some RErr.eof, true⟩]⟩ true
